import Mathlib

/-!
Verification of `netanalysis/ooni/data/sync_measurements.py`.

The development shallowly embeds the module's pure core (the recursive
`trim_measurement` record trimmer and the `_make_local_path` resolver) and
models its effectful core (`sync_file` / `fetch_file` inside `main`) as a
state-transition function over an abstract per-entry filesystem state with an
explicit fault-injection parameter, so that the behaviour of the
write / rename / cleanup sequence can be examined at every failure point.
-/

/-! ## JSON values and the record trimmer (source lines 33-55)

A measurement record is an arbitrarily nested JSON value.  `trim_measurement`
mirrors the `singledispatch` function of the source: the `dict` overload drops
every key whose value is a string strictly longer than `maxStringSize` and
recursively trims the remaining values, the `list` overload recursively trims
every element, and the default overload returns any other value unchanged.
-/

inductive Json where
  | null : Json
  | bool (b : Bool) : Json
  | num (n : Int) : Json
  | str (s : String) : Json
  | arr (items : List Json) : Json
  | obj (fields : List (String × Json)) : Json
deriving Repr

/-- The test on source line 42: `type(value) == str and len(value) > max_string_size`. -/
def isLongStr (v : Json) (maxStringSize : Nat) : Bool :=
  match v with
  | Json.str s => s.length > maxStringSize
  | _ => false

mutual

/-- `trim_measurement` (source lines 33-55), dispatching on the shape of the value. -/
def trim_measurement (j : Json) (maxStringSize : Nat) : Json :=
  match j with
  | Json.obj fields => Json.obj (trimObjFields fields maxStringSize)
  | Json.arr items => Json.arr (trimArrItems items maxStringSize)
  | j => j

/-- The `dict` overload (source lines 38-48): keys whose value is an oversized
string are collected and deleted after the loop; every other value is
recursively trimmed.  On the ordered field list this amounts to dropping the
flagged pairs and trimming the kept values, preserving the order of the rest. -/
def trimObjFields (fields : List (String × Json)) (maxStringSize : Nat) :
    List (String × Json) :=
  match fields with
  | [] => []
  | (k, v) :: rest =>
    if isLongStr v maxStringSize then trimObjFields rest maxStringSize
    else (k, trim_measurement v maxStringSize) :: trimObjFields rest maxStringSize

/-- The `list` overload (source lines 51-55): every element is trimmed in place. -/
def trimArrItems (items : List Json) (maxStringSize : Nat) : List Json :=
  match items with
  | [] => []
  | j :: rest => trim_measurement j maxStringSize :: trimArrItems rest maxStringSize

end

/-! ## Local path resolution (source lines 62-67)

`_make_local_path` takes the final segment of the entry's URL path
(`PurePosixPath(entry.url.path).name`), converts the basename to the
`.jsonl.gz` extension via `basename.rsplit('.', 2)[0] + '.jsonl.gz'` unless it
already ends with it, and composes
`output_dir / country / test_type / YYYY-MM-DD / basename`.
Paths are modelled as their list of components; the `PurePosixPath.name` and
`str.rsplit` / `str.endswith` operations of the Python standard library are
translated to explicit character-list functions below.
-/

/-- Split a character list on `/` into segments (model of POSIX path parsing). -/
def splitSeg : List Char → List (List Char)
  | [] => [[]]
  | c :: rest =>
    match splitSeg rest with
    | [] => [[]]
    | seg :: segs => if c = '/' then [] :: seg :: segs else (c :: seg) :: segs

/-- `PurePosixPath(p).name`: the final path component, where empty segments
(repeated or trailing slashes, the root) and `.` segments are dropped. -/
def posixName (p : String) : String :=
  String.mk (((splitSeg p.data).filter (fun seg => !(seg.isEmpty || seg == ['.']))).getLastD [])

/-- The character list strictly before the last `.` of the input, or `none`
when the input contains no `.`. -/
def beforeLastDot : List Char → Option (List Char)
  | [] => none
  | c :: rest =>
    match beforeLastDot rest with
    | some r => some (c :: r)
    | none => if c = '.' then some [] else none

/-- Head of Python's `s.rsplit('.', maxsplit)`: at most `maxsplit` splits are
taken from the right, and the leftmost piece is kept. -/
def rsplitHeadAux : Nat → List Char → List Char
  | 0, cs => cs
  | n + 1, cs =>
    match beforeLastDot cs with
    | none => cs
    | some r => rsplitHeadAux n r

/-- `s.rsplit('.', maxsplit)[0]` on strings. -/
def rsplitDotHead (s : String) (maxsplit : Nat) : String :=
  String.mk (rsplitHeadAux maxsplit s.data)

/-- Python's `s.endswith(suff)` on character lists. -/
def endsWithChars (s suff : List Char) : Bool :=
  s.reverse.take suff.length == suff.reverse

/-- A calendar date as carried by a catalog entry. -/
structure Date where
  year : Nat
  month : Nat
  day : Nat
deriving DecidableEq, Repr

/-- Zero-pad the decimal representation of `n` to `width` digits. -/
def padZeros (width : Nat) (n : Nat) : String :=
  let s := toString n
  String.mk (List.replicate (width - s.length) '0' ++ s.data)

/-- The `f-string` date format `%Y-%m-%d` of source line 67. -/
def formatDateYMD (d : Date) : String :=
  padZeros 4 d.year ++ "-" ++ padZeros 2 d.month ++ "-" ++ padZeros 2 d.day

/-- The metadata of one catalog entry (`ooni_client.FileEntry`) used by path
resolution: the URL path component, country code, test type, date and size. -/
structure FileEntry where
  url_path : String
  country : String
  test_type : String
  date : Date
  size : Nat
deriving DecidableEq, Repr

/-- The basename computation of `_make_local_path` (source lines 63-66). -/
def localBasename (e : FileEntry) : String :=
  let basename := posixName e.url_path
  if endsWithChars basename.data ".jsonl.gz".data then basename
  else rsplitDotHead basename 2 ++ ".jsonl.gz"

/-- `_make_local_path` (source lines 62-67); the returned path is represented
by its list of components relative to the filesystem root. -/
def _make_local_path (output_dir : List String) (e : FileEntry) : List String :=
  output_dir ++ [e.country, e.test_type, formatDateYMD e.date, localBasename e]

/-! ## The per-entry sync pipeline (source lines 80-107)

`fetch_file` is modelled as a transition on an abstract per-entry filesystem
state.  The model keeps the POSIX semantics that matter to the claims:

* `gzip.open(temp_path, 'wt')` creates an inode and links it at the temporary
  path; the stream holds a descriptor to the inode, not to the path;
* `temp_path.replace(target)` relinks that same inode from the temporary path
  to the target path, so later writes and the close of the stream keep going
  to the inode now visible at the target (the source performs the rename on
  line 103 *inside* the `with` block, before the stream is flushed and
  closed);
* the gzip stream only becomes a complete, valid gzip member once the stream
  is flushed and closed (`closed` flag of the inode); an unclosed inode is a
  truncated file (its gzip trailer was never written);
* `temp_path.unlink()` removes the link at the temporary path, and raises
  `FileNotFoundError` when no file is linked there.

A `Fault` value injects a failure at one point of the sequence: at
`gzip.open`, while writing record `i`, at the flush/close performed on exit
from the `with` block, or nowhere.  The `except:` handler of source lines
104-106 is `runExcept`.
-/

/-- Exceptions distinguished by the model. -/
inductive Exc where
  | costLimitError
  | ioError
  | fileNotFoundError
deriving DecidableEq, Repr

/-- Fault-injection point for one `fetch_file` run. -/
inductive Fault where
  | nofault
  | atOpen
  | atWrite (i : Nat)
  | atClose
deriving DecidableEq, Repr

/-- Observable operations performed by a worker, in program order. -/
inductive Ev where
  | madeDirs
  | costCheck
  | openTemp
  | netFetch
  | writeRec
  | renameTemp
  | closeFile
  | unlinkTemp
deriving DecidableEq, Repr

/-- The inode written by one task: the records serialized so far and whether
the compressed stream was flushed and closed (gzip trailer written). -/
structure Inode where
  lines : List Json
  closed : Bool
deriving Repr

/-- Abstract per-entry filesystem state.  `tempLink` / `targetLink` say
whether the temporary path / target path currently link to `inode`;
`preTarget` says whether a file already existed at the target path before the
task started. -/
structure FS where
  dirsMade : Bool
  tempLink : Bool
  targetLink : Bool
  inode : Option Inode
  preTarget : Bool
deriving Repr

/-- The state of an entry that has not been processed yet. -/
def initFS (pre : Bool) : FS :=
  ⟨false, false, false, none, pre⟩

/-- The `try` block of `fetch_file` (source lines 96-103) under fault
injection.  On the fault-free path all records are trimmed and written, the
temporary path is renamed onto the target *before* the stream is closed, and
the close then finalizes the inode that is already linked at the target. -/
def tryBody (maxStringSize : Nat) (ms : List Json) (fault : Fault) (fs : FS) :
    FS × List Ev × Except Exc Unit :=
  match fault with
  | Fault.atOpen =>
    (fs, [Ev.openTemp], Except.error Exc.ioError)
  | Fault.atWrite i =>
    if i < ms.length then
      ({ fs with
          inode := some ⟨(ms.take i).map (fun j => trim_measurement j maxStringSize), false⟩,
          tempLink := true },
        Ev.openTemp :: Ev.netFetch :: List.replicate i Ev.writeRec,
        Except.error Exc.ioError)
    else
      ({ fs with
          inode := some ⟨ms.map (fun j => trim_measurement j maxStringSize), true⟩,
          tempLink := false, targetLink := true },
        Ev.openTemp :: Ev.netFetch ::
          (List.replicate ms.length Ev.writeRec ++ [Ev.renameTemp, Ev.closeFile]),
        Except.ok ())
  | Fault.atClose =>
    ({ fs with
        inode := some ⟨ms.map (fun j => trim_measurement j maxStringSize), false⟩,
        tempLink := false, targetLink := true },
      Ev.openTemp :: Ev.netFetch ::
        (List.replicate ms.length Ev.writeRec ++ [Ev.renameTemp, Ev.closeFile]),
      Except.error Exc.ioError)
  | Fault.nofault =>
    ({ fs with
        inode := some ⟨ms.map (fun j => trim_measurement j maxStringSize), true⟩,
        tempLink := false, targetLink := true },
      Ev.openTemp :: Ev.netFetch ::
        (List.replicate ms.length Ev.writeRec ++ [Ev.renameTemp, Ev.closeFile]),
      Except.ok ())

/-- The `except:` handler of source lines 104-106: on any exception from the
`try` block, `temp_path.unlink()` is attempted and the exception is re-raised.
When no file is linked at the temporary path the `unlink` itself raises
`FileNotFoundError`, which then propagates instead of the original error. -/
def runExcept (r : FS × List Ev × Except Exc Unit) : FS × List Ev × Except Exc Unit :=
  match r with
  | (fs, evs, Except.ok u) => (fs, evs, Except.ok u)
  | (fs, evs, Except.error e) =>
    if fs.tempLink then
      ({ fs with tempLink := false, inode := if fs.targetLink then fs.inode else none },
        evs ++ [Ev.unlinkTemp], Except.error e)
    else
      (fs, evs ++ [Ev.unlinkTemp], Except.error Exc.fileNotFoundError)

/-- `fetch_file` (source lines 86-107): create the parent directories, read
the shared cumulative cost and raise `CostLimitError` when it strictly
exceeds the configured ceiling, and otherwise run the guarded write.
`cost_usd` is the value of `ooni.cost_usd` read by this worker and `ms` the
record sequence produced by `entry.get_measurements()`. -/
def fetch_file (cost_usd cost_limit_usd : ℚ) (maxStringSize : Nat) (ms : List Json)
    (fault : Fault) (fs : FS) : FS × List Ev × Except Exc Unit :=
  let fs1 := { fs with dirsMade := true }
  if cost_usd > cost_limit_usd then
    (fs1, [Ev.madeDirs, Ev.costCheck], Except.error Exc.costLimitError)
  else
    match runExcept (tryBody maxStringSize ms fault fs1) with
    | (fs2, evs, r) => (fs2, Ev.madeDirs :: Ev.costCheck :: evs, r)

/-- Per-entry outcome message. -/
inductive SyncMsg where
  | skipped
  | downloaded
deriving DecidableEq, Repr

/-- `sync_file` (source lines 80-84): when a file already exists at the
resolved target path the entry is skipped without any further operation;
otherwise the entry is fetched. -/
def sync_file (cost_usd cost_limit_usd : ℚ) (maxStringSize : Nat) (ms : List Json)
    (fault : Fault) (fs : FS) : FS × List Ev × Except Exc SyncMsg :=
  if fs.preTarget || fs.targetLink then
    (fs, [], Except.ok SyncMsg.skipped)
  else
    match fetch_file cost_usd cost_limit_usd maxStringSize ms fault fs with
    | (fs2, evs, Except.ok _) => (fs2, evs, Except.ok SyncMsg.downloaded)
    | (fs2, evs, Except.error e) => (fs2, evs, Except.error e)

/-- One entry of a run: whether its target file pre-exists, its record
sequence, and the fault injected into its processing. -/
structure EntryTask where
  pre : Bool
  ms : List Json
  fault : Fault

/-- Result of a run: the per-entry outcome messages, the final per-entry
filesystem states, and the exception that aborted the run, if any. -/
structure RunResult where
  msgs : List SyncMsg
  states : List FS
  aborted : Option Exc

/-- The dispatch loop of `main` (source lines 109-111): each entry is handed
to `sync_file`; the first exception escaping a task aborts the whole run and
the remaining entries are abandoned (no retry, no per-entry isolation). -/
def runSync (cost_usd cost_limit_usd : ℚ) (maxStringSize : Nat) : List EntryTask → RunResult
  | [] => ⟨[], [], none⟩
  | e :: rest =>
    match sync_file cost_usd cost_limit_usd maxStringSize e.ms e.fault (initFS e.pre) with
    | (fs, _, Except.ok msg) =>
      let r := runSync cost_usd cost_limit_usd maxStringSize rest
      ⟨msg :: r.msgs, fs :: r.states, r.aborted⟩
    | (fs, _, Except.error ex) => ⟨[], [fs], some ex⟩

/-- Process exit status (source line 132): `sys.exit(main(...))` exits 0 when
`main` returns normally and non-zero when an exception escapes it. -/
def exitCode (r : RunResult) : Nat :=
  match r.aborted with
  | none => 0
  | some _ => 1

/-- The atomicity contract on one entry's final state: the target path either
has no file, or it has a fully written (flushed and closed) one. -/
def targetIsValidOrAbsent (fs : FS) : Bool :=
  if fs.targetLink then
    match fs.inode with
    | some ino => ino.closed
    | none => false
  else true

/-! ## The shared `num_measurements` counter (source lines 76, 87, 99)

`num_measurements += 1` on a variable shared across the `ThreadPool` workers
is a non-atomic read-increment-write.  The model gives each of two workers a
private register and a two-step program (read the shared counter into the
register, then store register + 1 back); a schedule is any interleaving of
the two programs. -/

/-- One hardware-level step of `num_measurements += 1` by worker `w`. -/
inductive IncStep where
  | readCounter (w : Bool)
  | writeCounter (w : Bool)
deriving DecidableEq, Repr

/-- Shared counter plus the two workers' private registers. -/
structure CounterState where
  num_measurements : Nat
  reg0 : Option Nat
  reg1 : Option Nat
deriving DecidableEq, Repr

/-- Effect of one step. -/
def incStep (s : CounterState) : IncStep → CounterState
  | IncStep.readCounter false => { s with reg0 := some s.num_measurements }
  | IncStep.readCounter true => { s with reg1 := some s.num_measurements }
  | IncStep.writeCounter false =>
    match s.reg0 with
    | some v => { s with num_measurements := v + 1 }
    | none => s
  | IncStep.writeCounter true =>
    match s.reg1 with
    | some v => { s with num_measurements := v + 1 }
    | none => s

/-- Run a schedule from a state. -/
def execSched (steps : List IncStep) (s : CounterState) : CounterState :=
  steps.foldl incStep s

/-- The two-step program `num_measurements += 1` of worker `w`. -/
def workerProg (w : Bool) : List IncStep :=
  [IncStep.readCounter w, IncStep.writeCounter w]

/-- The schedule in which both workers read the counter before either writes
it back: a legal interleaving of the two programs. -/
def lostUpdateSched : List IncStep :=
  [IncStep.readCounter false, IncStep.readCounter true,
   IncStep.writeCounter false, IncStep.writeCounter true]

/-! ## Theorems: the record trimmer -/

theorem isLongStr_trim (v : Json) (m : Nat) :
    isLongStr (trim_measurement v m) m = isLongStr v m := by
  cases v <;> simp [trim_measurement, isLongStr]

theorem trimArrItems_eq_map (items : List Json) (m : Nat) :
    trimArrItems items m = items.map (fun j => trim_measurement j m) := by
  induction items with
  | nil => simp [trimArrItems]
  | cons j rest ih => simp [trimArrItems, ih]

theorem trimObjFields_eq_filterMap (fields : List (String × Json)) (m : Nat) :
    trimObjFields fields m
      = (fields.filter (fun kv => !(isLongStr kv.2 m))).map
          (fun kv => (kv.1, trim_measurement kv.2 m)) := by
  induction fields with
  | nil => simp [trimObjFields]
  | cons kv rest ih =>
    obtain ⟨k, v⟩ := kv
    by_cases hl : isLongStr v m = true
    · simp [trimObjFields, hl, ih]
    · simp [trimObjFields, hl, ih]

theorem trimObjFields_keys_sub (fields : List (String × Json)) (m : Nat) (k : String)
    (h : k ∈ (trimObjFields fields m).map Prod.fst) : k ∈ fields.map Prod.fst := by
  induction fields with
  | nil => simp [trimObjFields] at h
  | cons kv rest ih =>
    obtain ⟨k0, v0⟩ := kv
    by_cases hl : isLongStr v0 m = true
    · rw [trimObjFields, if_pos hl] at h
      exact List.mem_cons.mpr (Or.inr (ih h))
    · rw [trimObjFields, if_neg hl] at h
      rcases List.mem_cons.mp h with h1 | h1
      · exact List.mem_cons.mpr (Or.inl h1)
      · exact List.mem_cons.mpr (Or.inr (ih h1))

theorem mem_trimObjFields_keys (fields : List (String × Json)) (m : Nat) (k : String) (v : Json)
    (hnd : (fields.map Prod.fst).Nodup) (hmem : (k, v) ∈ fields) :
    (k ∈ (trimObjFields fields m).map Prod.fst) ↔ isLongStr v m = false := by
  induction fields with
  | nil => simp at hmem
  | cons kv rest ih =>
    obtain ⟨k0, v0⟩ := kv
    simp only [List.map_cons, List.nodup_cons] at hnd
    obtain ⟨hk0, hndr⟩ := hnd
    rcases List.mem_cons.mp hmem with heq | htl
    · cases heq
      by_cases hl : isLongStr v m = true
      · rw [trimObjFields, if_pos hl]
        simp only [hl, Bool.true_eq_false, iff_false]
        intro hin
        exact hk0 (trimObjFields_keys_sub rest m k hin)
      · have hl1 : isLongStr v m = false := by simpa using hl
        rw [trimObjFields, if_neg hl]
        simp [hl1]
    · have hkne : k ≠ k0 := by
        intro h
        subst h
        exact hk0 (List.mem_map_of_mem Prod.fst htl)
      by_cases hl : isLongStr v0 m = true
      · rw [trimObjFields, if_pos hl]
        exact ih hndr htl
      · rw [trimObjFields, if_neg hl]
        simp only [List.map_cons, List.mem_cons, hkne, false_or]
        exact ih hndr htl

theorem trim_idem_bound (n : Nat) :
    (∀ j : Json, sizeOf j ≤ n → ∀ m,
        trim_measurement (trim_measurement j m) m = trim_measurement j m)
    ∧ (∀ items : List Json, sizeOf items ≤ n → ∀ m,
        trimArrItems (trimArrItems items m) m = trimArrItems items m)
    ∧ (∀ fields : List (String × Json), sizeOf fields ≤ n → ∀ m,
        trimObjFields (trimObjFields fields m) m = trimObjFields fields m) := by
  induction n with
  | zero =>
    refine ⟨fun j hj => absurd hj (by cases j <;> simp),
            fun items hi m => ?_, fun fields hf m => ?_⟩
    · cases items with
      | nil => simp [trimArrItems]
      | cons a l => exact absurd hi (by simp)
    · cases fields with
      | nil => simp [trimObjFields]
      | cons a l => exact absurd hf (by simp)
  | succ n ih =>
    obtain ⟨ihj, iha, iho⟩ := ih
    refine ⟨fun j hj m => ?_, fun items hi m => ?_, fun fields hf m => ?_⟩
    · cases j with
      | arr items =>
        have : sizeOf items ≤ n := by simp at hj; omega
        simp [trim_measurement, iha items this m]
      | obj fields =>
        have : sizeOf fields ≤ n := by simp at hj; omega
        simp [trim_measurement, iho fields this m]
      | null => rfl
      | bool b => rfl
      | num k => rfl
      | str s => rfl
    · cases items with
      | nil => simp [trimArrItems]
      | cons a l =>
        have ha : sizeOf a ≤ n := by simp at hi; omega
        have hl : sizeOf l ≤ n := by simp at hi; omega
        simp [trimArrItems, ihj a ha m, iha l hl m]
    · cases fields with
      | nil => simp [trimObjFields]
      | cons kv l =>
        obtain ⟨k, v⟩ := kv
        have hv : sizeOf v ≤ n := by simp at hf; omega
        have hl : sizeOf l ≤ n := by simp at hf; omega
        by_cases hlong : isLongStr v m = true
        · simp [trimObjFields, hlong, iho l hl m]
        · simp only [Bool.not_eq_true] at hlong
          simp [trimObjFields, hlong, isLongStr_trim, ihj v hv m, iho l hl m]

/-- Claim C4: on a mapping, `trim_measurement` drops a key-value pair exactly
when the value is a string whose length strictly exceeds the threshold (the
pair is fully removed, never truncated); every kept value is recursively
trimmed, with the order of the remaining pairs unchanged, and the resulting
mapping is returned. -/
theorem trim_obj_removes_key_iff_long_string (fields : List (String × Json)) (m : Nat)
    (k : String) (v : Json)
    (hnd : (fields.map Prod.fst).Nodup) (hmem : (k, v) ∈ fields) :
    trim_measurement (Json.obj fields) m
      = Json.obj ((fields.filter (fun kv => !(isLongStr kv.2 m))).map
          (fun kv => (kv.1, trim_measurement kv.2 m)))
    ∧ ((k ∈ (trimObjFields fields m).map Prod.fst) ↔ isLongStr v m = false) :=
  ⟨by simp [trim_measurement, trimObjFields_eq_filterMap],
   mem_trimObjFields_keys fields m k v hnd hmem⟩

/-- Witness for C4: the record `{"a": "abc", "b": "xy"}` at threshold 2 loses
exactly the key `"a"`. -/
theorem trim_obj_removes_key_iff_long_string_witness :
    trim_measurement (Json.obj [("a", Json.str "abc"), ("b", Json.str "xy")]) 2
      = Json.obj [("b", Json.str "xy")]
    ∧ (("a" ∈ (trimObjFields [("a", Json.str "abc"), ("b", Json.str "xy")] 2).map Prod.fst)
        ↔ isLongStr (Json.str "abc") 2 = false) :=
  trim_obj_removes_key_iff_long_string [("a", Json.str "abc"), ("b", Json.str "xy")] 2 "a"
    (Json.str "abc") (by decide) (List.mem_cons_self _ _)

/-- Claim C7: `trim_measurement` is idempotent: trimming an already-trimmed
record changes nothing. -/
theorem trim_measurement_idempotent (j : Json) (m : Nat) :
    trim_measurement (trim_measurement j m) m = trim_measurement j m :=
  (trim_idem_bound (sizeOf j)).1 j le_rfl m

/-- Claim C8: on a sequence `trim_measurement` trims each element in place,
preserving length and order, and every scalar — including an oversized string
that is not the direct value of a mapping key (a string element of a sequence
or a top-level string) — is returned unchanged, neither removed nor
truncated. -/
theorem trim_arr_and_scalars_frame (items : List Json) (m : Nat) (s : String)
    (b : Bool) (n : Int) :
    trim_measurement (Json.arr items) m
      = Json.arr (items.map (fun j => trim_measurement j m))
    ∧ (trimArrItems items m).length = items.length
    ∧ trim_measurement (Json.str s) m = Json.str s
    ∧ trim_measurement Json.null m = Json.null
    ∧ trim_measurement (Json.bool b) m = Json.bool b
    ∧ trim_measurement (Json.num n) m = Json.num n := by
  refine ⟨?_, ?_, rfl, rfl, rfl, rfl⟩
  · simp [trim_measurement, trimArrItems_eq_map]
  · simp [trimArrItems_eq_map]

/-! ## Theorems: the sync pipeline -/

/-- Claim C1 (refuted by the code): atomicity of the write is violated.
Because the source renames the temporary file onto the target *inside* the
gzip `with` block (line 103), a failure at the flush/close of the stream
happens after the rename, so the final state has a file linked at the target
path whose stream was never finalized — a truncated gzip file, not a valid
one — and the cleanup `unlink` then raises `FileNotFoundError`.  This
contradicts "the target path either does not exist or contains a
fully-written, valid file" and the source's own comment on lines 92-94. -/
theorem atomic_write_violated_at_close :
    (fetch_file 0 1 1000 [] Fault.atClose (initFS false)).1.targetLink = true
    ∧ targetIsValidOrAbsent (fetch_file 0 1 1000 [] Fault.atClose (initFS false)).1 = false
    ∧ (fetch_file 0 1 1000 [] Fault.atClose (initFS false)).2.2
        = Except.error Exc.fileNotFoundError :=
  ⟨rfl, rfl, rfl⟩

/-- Claim C2: the worker reads the shared cumulative cost before fetching the
entry's records or opening its temporary file; when it strictly exceeds the
ceiling a `CostLimitError` aborts the task at once (the event trace stops at
the cost check, no inode is created), and at run level this aborts the run
before any entry is downloaded, with exit status 1 and zero files written. -/
theorem cost_limit_pre_check_aborts_run (cost_usd cost_limit_usd : ℚ)
    (maxStringSize : Nat) (ms : List Json) (fault : Fault) (fs : FS)
    (en : EntryTask) (rest : List EntryTask)
    (hc : cost_usd > cost_limit_usd) (hpre : en.pre = false) :
    fetch_file cost_usd cost_limit_usd maxStringSize ms fault fs
      = ({ fs with dirsMade := true }, [Ev.madeDirs, Ev.costCheck],
          Except.error Exc.costLimitError)
    ∧ runSync cost_usd cost_limit_usd maxStringSize (en :: rest)
      = ⟨[], [⟨true, false, false, none, false⟩], some Exc.costLimitError⟩
    ∧ exitCode (runSync cost_usd cost_limit_usd maxStringSize (en :: rest)) = 1 := by
  refine ⟨by simp [fetch_file, hc], ?_, ?_⟩
  · simp [runSync, sync_file, hpre, initFS, fetch_file, hc]
  · simp [exitCode, runSync, sync_file, hpre, initFS, fetch_file, hc]

/-- Witness for C2: ceiling 0, prior spend 1. -/
theorem cost_limit_pre_check_aborts_run_witness :
    fetch_file 1 0 1000 [] Fault.nofault (initFS false)
      = (⟨true, false, false, none, false⟩, [Ev.madeDirs, Ev.costCheck],
          Except.error Exc.costLimitError)
    ∧ runSync 1 0 1000 [⟨false, [], Fault.nofault⟩]
      = ⟨[], [⟨true, false, false, none, false⟩], some Exc.costLimitError⟩
    ∧ exitCode (runSync 1 0 1000 [⟨false, [], Fault.nofault⟩]) = 1 :=
  cost_limit_pre_check_aborts_run 1 0 1000 [] Fault.nofault (initFS false)
    ⟨false, [], Fault.nofault⟩ [] (by decide) rfl

/-- Claim C3: when the write of an entry fails while the records are being
written (the temporary file exists and has not been renamed yet), the
temporary file is deleted, no file is left at either path, and the original
failure is re-raised; at run level the exception aborts the whole run, with
the remaining entries abandoned — no retry, no per-entry isolation. -/
theorem write_failure_deletes_temp_and_propagates (cost_usd cost_limit_usd : ℚ)
    (maxStringSize : Nat) (ms : List Json) (i : Nat) (rest : List EntryTask)
    (hc : ¬ cost_usd > cost_limit_usd) (hi : i < ms.length) :
    fetch_file cost_usd cost_limit_usd maxStringSize ms (Fault.atWrite i) (initFS false)
      = (⟨true, false, false, none, false⟩,
          Ev.madeDirs :: Ev.costCheck :: Ev.openTemp :: Ev.netFetch ::
            (List.replicate i Ev.writeRec ++ [Ev.unlinkTemp]),
          Except.error Exc.ioError)
    ∧ runSync cost_usd cost_limit_usd maxStringSize (⟨false, ms, Fault.atWrite i⟩ :: rest)
      = ⟨[], [⟨true, false, false, none, false⟩], some Exc.ioError⟩ := by
  constructor
  · simp [fetch_file, hc, tryBody, hi, runExcept, initFS]
  · simp [runSync, sync_file, initFS, fetch_file, hc, tryBody, hi, runExcept]

/-- Witness for C3: one-record entry, failure while writing record 0. -/
theorem write_failure_deletes_temp_and_propagates_witness :
    fetch_file 0 1 1000 [Json.null] (Fault.atWrite 0) (initFS false)
      = (⟨true, false, false, none, false⟩,
          [Ev.madeDirs, Ev.costCheck, Ev.openTemp, Ev.netFetch, Ev.unlinkTemp],
          Except.error Exc.ioError)
    ∧ runSync 0 1 1000 [⟨false, [Json.null], Fault.atWrite 0⟩]
      = ⟨[], [⟨true, false, false, none, false⟩], some Exc.ioError⟩ :=
  write_failure_deletes_temp_and_propagates 0 1 1000 [Json.null] 0 [] (by decide) (by decide)

/-- Claim C6: an entry whose resolved target path already names an existing
file is skipped: the outcome is `skipped` and the event trace is empty — no
directory creation, no budget check, no record fetch, no write — and the
filesystem state is returned unchanged. -/
theorem existing_target_skips_entry (cost_usd cost_limit_usd : ℚ) (maxStringSize : Nat)
    (ms : List Json) (fault : Fault) (fs : FS) (hpre : fs.preTarget = true) :
    sync_file cost_usd cost_limit_usd maxStringSize ms fault fs
      = (fs, [], Except.ok SyncMsg.skipped) := by
  simp [sync_file, hpre]

/-- Witness for C6: a fresh entry state whose target file pre-exists. -/
theorem existing_target_skips_entry_witness :
    sync_file 0 1 1000 [Json.null] Fault.nofault (initFS true)
      = (initFS true, [], Except.ok SyncMsg.skipped) :=
  existing_target_skips_entry 0 1 1000 [Json.null] Fault.nofault (initFS true) rfl

/-- Claim C10: when the failure happens before the temporary file exists
(`gzip.open` itself fails) or after the temporary file has been renamed onto
the target (failure at the flush/close of the stream, which the source
performs after the in-block rename), the handler's `temp_path.unlink()` finds
no file at the temporary path and itself raises `FileNotFoundError`, which
propagates out of the task in place of the original error. -/
theorem cleanup_unlink_masks_original_error (cost_usd cost_limit_usd : ℚ)
    (maxStringSize : Nat) (ms : List Json) (fault : Fault)
    (hc : ¬ cost_usd > cost_limit_usd)
    (hf : fault = Fault.atOpen ∨ fault = Fault.atClose) :
    (fetch_file cost_usd cost_limit_usd maxStringSize ms fault (initFS false)).2.2
      = Except.error Exc.fileNotFoundError
    ∧ (Except.error Exc.fileNotFoundError : Except Exc Unit) ≠ Except.error Exc.ioError := by
  refine ⟨?_, fun h => absurd (Except.error.inj h) (by decide)⟩
  rcases hf with hf | hf <;> subst hf <;>
    simp [fetch_file, hc, tryBody, runExcept, initFS]

/-- Witness for C10: `gzip.open` fails on a fresh entry. -/
theorem cleanup_unlink_masks_original_error_witness :
    (fetch_file 0 1 1000 [] Fault.atOpen (initFS false)).2.2
      = Except.error Exc.fileNotFoundError
    ∧ (Except.error Exc.fileNotFoundError : Except Exc Unit) ≠ Except.error Exc.ioError :=
  cleanup_unlink_masks_original_error 0 1 1000 [] Fault.atOpen (by decide) (Or.inl rfl)

/-! ## Theorems: the shared counter -/

/-- Claim C9 (refuted by the code): `num_measurements += 1` on a closed-over
variable shared across `ThreadPool` workers is a non-atomic
read-increment-write, and an interleaving in which both workers read the
counter before either writes loses one update: the schedule below is a legal
interleaving of the two workers' increment programs, yet the final counter is
1, not the sum 2 of the two contributions. -/
theorem num_measurements_lost_update :
    List.Sublist (workerProg false) lostUpdateSched
    ∧ List.Sublist (workerProg true) lostUpdateSched
    ∧ lostUpdateSched.length = (workerProg false).length + (workerProg true).length
    ∧ (execSched lostUpdateSched ⟨0, none, none⟩).num_measurements = 1
    ∧ (execSched lostUpdateSched ⟨0, none, none⟩).num_measurements ≠ 2 := by
  decide

/-! ## Theorems: local path resolution -/

theorem beforeLastDot_eq_none (ys : List Char) (h : '.' ∉ ys) :
    beforeLastDot ys = none := by
  induction ys with
  | nil => rfl
  | cons c rest ih =>
    have hc : ¬ c = '.' := fun hh => h (by simp [hh])
    have hr : '.' ∉ rest := fun hh => h (List.mem_cons_of_mem c hh)
    simp [beforeLastDot, ih hr, hc]

theorem beforeLastDot_append (xs ys : List Char) (h : '.' ∉ ys) :
    beforeLastDot (xs ++ '.' :: ys) = some xs := by
  induction xs with
  | nil => simp [beforeLastDot, beforeLastDot_eq_none ys h]
  | cons c rest ih => simp [beforeLastDot, ih]

theorem rsplitHeadAux_succ (n : Nat) (cs : List Char) :
    rsplitHeadAux (n + 1) cs
      = match beforeLastDot cs with
        | none => cs
        | some r => rsplitHeadAux n r := rfl

theorem rsplitHeadAux_step (n : Nat) (xs ys : List Char) (h : '.' ∉ ys) :
    rsplitHeadAux (n + 1) (xs ++ '.' :: ys) = rsplitHeadAux n xs := by
  simp [rsplitHeadAux_succ, beforeLastDot_append xs ys h]

theorem rsplitHeadAux_two_suffixes (init s1 s2 : List Char)
    (h1 : '.' ∉ s1) (h2 : '.' ∉ s2) :
    rsplitHeadAux 2 (init ++ '.' :: (s1 ++ '.' :: s2)) = init := by
  have e1 : init ++ '.' :: (s1 ++ '.' :: s2) = (init ++ '.' :: s1) ++ '.' :: s2 := by
    simp
  rw [e1, show (2 : Nat) = 1 + 1 from rfl, rsplitHeadAux_step 1 _ _ h2,
      show (1 : Nat) = 0 + 1 from rfl, rsplitHeadAux_step 0 _ _ h1]
  rfl

/-- Claim C5: local path resolution is a pure, deterministic, total function:
the final segment of the entry's URL path is the basename; when the basename
already ends in `.jsonl.gz` it is kept, and otherwise its trailing two
dot-separated suffixes are replaced by `.jsonl.gz`; the result is always
`output_dir / country / test_type / YYYY-MM-DD / basename`. -/
theorem make_local_path_resolution (root : List String) (e : FileEntry) :
    _make_local_path root e
      = root ++ [e.country, e.test_type, formatDateYMD e.date, localBasename e]
    ∧ (endsWithChars (posixName e.url_path).data ".jsonl.gz".data = true →
        localBasename e = posixName e.url_path)
    ∧ (∀ init s1 s2 : List Char, '.' ∉ s1 → '.' ∉ s2 →
        (posixName e.url_path).data = init ++ '.' :: (s1 ++ '.' :: s2) →
        endsWithChars (posixName e.url_path).data ".jsonl.gz".data = false →
        localBasename e = String.mk (init ++ ".jsonl.gz".data)) := by
  refine ⟨rfl, ?_, ?_⟩
  · intro hend
    simp [localBasename, hend]
  · intro init s1 s2 h1 h2 hdata hend
    simp only [localBasename, hend, Bool.false_eq_true, if_false]
    rw [rsplitDotHead, hdata, rsplitHeadAux_two_suffixes init s1 s2 h1 h2]
    rfl

/-- Witness for C5: the entry for `/ooni/XX/report.tar.lz4` on 2021-01-02
resolves to `out/XX/webconnectivity/2021-01-02/report.jsonl.gz`. -/
theorem make_local_path_resolution_witness :
    _make_local_path ["out"]
        ⟨"/ooni/XX/report.tar.lz4", "XX", "webconnectivity", ⟨2021, 1, 2⟩, 100⟩
      = ["out", "XX", "webconnectivity", "2021-01-02", "report.jsonl.gz"] := by
  have h := make_local_path_resolution ["out"]
      ⟨"/ooni/XX/report.tar.lz4", "XX", "webconnectivity", ⟨2021, 1, 2⟩, 100⟩
  have h3 := h.2.2 "report".data "tar".data "lz4".data
      (by decide) (by decide) (by decide) (by decide)
  rw [h.1, h3]
  rfl
